import Mathlib

/-!
Verification of the AI response reconciliation layer of the quiz application
(source file `src/services/ai_service.py`): response parsing, question
validation, fallback generation, quiz orchestration and feedback generation.

Python runtime values are modelled by `PyVal`.  Machine-level aspects kept
out of the model (noted where relevant): IEEE-754 float arithmetic is
modelled by exact rationals, `str.lower` and numeric string parsing are
modelled on ASCII, and JSON `NaN`/`Infinity` literals and lone UTF-16
surrogate escapes are not representable.  Network transport is abstracted as
an explicit argument giving, per attempt, either a raised error, a missing
response text, or the raw response text.
-/

/-- Model of a Python runtime value as produced by `json.loads` and
manipulated by the service code.  Floats are modelled as exact rationals;
dicts as insertion-ordered association lists with unique keys. -/
inductive PyVal where
  | pnull
  | pbool (b : Bool)
  | pint (n : Int)
  | pfloat (q : Rat)
  | pstr (s : String)
  | plist (xs : List PyVal)
  | pdict (xs : List (String × PyVal))

/-- The whitespace characters stripped by Python's `str.strip()` (ASCII part). -/
def pyIsSpace (c : Char) : Bool :=
  c = ' ' || c = '\t' || c = '\n' || c = '\r' || c = '\x0b' || c = '\x0c'

/-- Python `str.strip()` on a character list. -/
def pyStrip (cs : List Char) : List Char :=
  ((cs.dropWhile pyIsSpace).reverse.dropWhile pyIsSpace).reverse

/-- Python `str.strip(chars)`: remove any of the given characters from both ends. -/
def pyStripChars (cut : List Char) (cs : List Char) : List Char :=
  ((cs.dropWhile (cut.contains ·)).reverse.dropWhile (cut.contains ·)).reverse

/-- ASCII lowercasing, modelling `str.lower()` on the strings appearing here. -/
def pyLower (cs : List Char) : List Char :=
  cs.map Char.toLower

/-- Substring test, modelling Python's `needle in hay` on strings. -/
def containsSub (needle hay : List Char) : Bool :=
  hay.tails.any (needle.isPrefixOf ·)

/-- Index of the first occurrence of `needle` in `hay` (leftmost match
position of a literal pattern, as regex search uses). -/
def findSubIdx (needle : List Char) : List Char → Option Nat
  | [] => if needle.isEmpty then some 0 else none
  | c :: t =>
    if needle.isPrefixOf (c :: t) then some 0
    else (findSubIdx needle t).map (· + 1)

/-- Index of the last occurrence of character `c` (Python `str.rfind`). -/
def rfindIdx (c : Char) (cs : List Char) : Option Nat :=
  (cs.reverse.findIdx? (· = c)).map (fun k => cs.length - 1 - k)

/-- Lookup in a Python dict modelled as an association list with unique keys
(`d[k]`, and `k in d` by testing for `some`). -/
def dictGet (d : List (String × PyVal)) (k : String) : Option PyVal :=
  (d.find? (fun p => p.1 == k)).map (·.2)

/-- Python `dict.get(k, default)`: the stored value wins even when it is `None`. -/
def dictGetD (d : List (String × PyVal)) (k : String) (v : PyVal) : PyVal :=
  (dictGet d k).getD v

/-- Dict insertion: replace in place if the key exists, else append
(CPython insertion-order semantics, used for duplicate keys in JSON objects). -/
def dictInsert (d : List (String × PyVal)) (k : String) (v : PyVal) :
    List (String × PyVal) :=
  if d.any (fun p => p.1 == k) then
    d.map (fun p => if p.1 == k then (k, v) else p)
  else d ++ [(k, v)]

/-- Python truthiness of a value. -/
def pyTruthy : PyVal → Bool
  | .pnull => false
  | .pbool b => b
  | .pint n => n != 0
  | .pfloat q => q != 0
  | .pstr s => s != ""
  | .plist xs => !xs.isEmpty
  | .pdict xs => !xs.isEmpty

/-- Decimal-ish rendering of a modelled float.  Python renders floats as
shortest-roundtrip decimals; the code below only ever inspects the length of
such a rendering (always at least three characters, e.g. "0.5"), which this
placeholder preserves. -/
def floatRepr (q : Rat) : String :=
  if q.den == 1 then toString q.num ++ ".0"
  else toString q.num ++ "." ++ toString q.den

mutual

/-- Python `repr(x)` for model values (string quoting and escaping are
simplified; only used through `str` on non-string option entries, where
merely the trimmed length matters). -/
def pyRepr : PyVal → String
  | .pnull => "None"
  | .pbool true => "True"
  | .pbool false => "False"
  | .pint n => toString n
  | .pfloat q => floatRepr q
  | .pstr s => "\x27" ++ s ++ "\x27"
  | .plist xs => "[" ++ pyReprList xs ++ "]"
  | .pdict xs => "\x7b" ++ pyReprDict xs ++ "\x7d"

/-- Comma-separated reprs of list elements. -/
def pyReprList : List PyVal → String
  | [] => ""
  | [x] => pyRepr x
  | x :: y :: t => pyRepr x ++ ", " ++ pyReprList (y :: t)

/-- Comma-separated reprs of dict entries. -/
def pyReprDict : List (String × PyVal) → String
  | [] => ""
  | [(k, v)] => "\x27" ++ k ++ "\x27: " ++ pyRepr v
  | (k, v) :: y :: t => "\x27" ++ k ++ "\x27: " ++ pyRepr v ++ ", " ++ pyReprDict (y :: t)

end

/-- Python `str(x)`: identity on strings, `repr` otherwise. -/
def pyStr : PyVal → String
  | .pstr s => s
  | v => pyRepr v

/-- Digit-run accumulator for Python `int("...")`, allowing single interior
underscores; the flag records whether the previous character was a digit. -/
def intFromDigits : List Char → Int → Bool → Option Int
  | [], acc, lastDigit => if lastDigit then some acc else none
  | c :: t, acc, lastDigit =>
    if c.isDigit then intFromDigits t (acc * 10 + ((c.toNat : Int) - 48)) true
    else if c = '_' then
      if lastDigit then intFromDigits t acc false else none
    else none

/-- Python `int("...")`: optional surrounding whitespace, optional sign, then
a nonempty ASCII digit run with single interior underscores. -/
def pyParseInt (s : String) : Option Int :=
  match pyStrip s.toList with
  | '+' :: t => intFromDigits t 0 false
  | '-' :: t => (intFromDigits t 0 false).map (- ·)
  | t => intFromDigits t 0 false

/-- Truncation toward zero, modelling `int()` applied to a float. -/
def ratTrunc (q : Rat) : Int :=
  if q.num ≥ 0 then Int.ofNat (q.num.toNat / q.den)
  else - Int.ofNat ((- q.num).toNat / q.den)

/-- Python `int(x)` on a model value; `none` models a raised
`ValueError`/`TypeError` (which `_validate_question` catches). -/
def pyToInt : PyVal → Option Int
  | .pint n => some n
  | .pbool b => some (if b then 1 else 0)
  | .pfloat q => some (ratTrunc q)
  | .pstr s => pyParseInt s
  | _ => none

/-- JSON whitespace accepted between tokens by `json.loads`. -/
def jsonWs (c : Char) : Bool :=
  c = ' ' || c = '\t' || c = '\n' || c = '\r'

/-- Drop leading JSON whitespace. -/
def skipWs (cs : List Char) : List Char :=
  cs.dropWhile jsonWs

/-- Value of an ASCII hex digit. -/
def hexVal (c : Char) : Option Nat :=
  if c.isDigit then some (c.toNat - 48)
  else if 'a' ≤ c && c ≤ 'f' then some (c.toNat - 87)
  else if 'A' ≤ c && c ≤ 'F' then some (c.toNat - 55)
  else none

/-- JSON string body parser (opening quote already consumed), accumulating
characters in reverse.  Strict mode: raw control characters are rejected;
`\uXXXX` surrogate pairs are combined (lone surrogates are outside the model). -/
def parseStrAux : List Char → List Char → Option (String × List Char)
  | _, [] => none
  | acc, c :: rest =>
    if c = '"' then some (String.mk acc.reverse, rest)
    else if c = '\\' then
      match rest with
      | [] => none
      | e :: rest2 =>
        if e = '"' then parseStrAux ('"' :: acc) rest2
        else if e = '\\' then parseStrAux ('\\' :: acc) rest2
        else if e = '/' then parseStrAux ('/' :: acc) rest2
        else if e = 'b' then parseStrAux ('\x08' :: acc) rest2
        else if e = 'f' then parseStrAux ('\x0c' :: acc) rest2
        else if e = 'n' then parseStrAux ('\n' :: acc) rest2
        else if e = 'r' then parseStrAux ('\r' :: acc) rest2
        else if e = 't' then parseStrAux ('\t' :: acc) rest2
        else if e = 'u' then
          match rest2 with
          | a :: b :: c2 :: d :: rest3 =>
            match hexVal a, hexVal b, hexVal c2, hexVal d with
            | some ha, some hb, some hc, some hd =>
              let n := ((ha * 16 + hb) * 16 + hc) * 16 + hd
              if 0xD800 ≤ n ∧ n ≤ 0xDBFF then
                match rest3 with
                | '\\' :: 'u' :: a2 :: b2 :: c3 :: d2 :: rest4 =>
                  match hexVal a2, hexVal b2, hexVal c3, hexVal d2 with
                  | some h1, some h2, some h3, some h4 =>
                    let m := ((h1 * 16 + h2) * 16 + h3) * 16 + h4
                    if 0xDC00 ≤ m ∧ m ≤ 0xDFFF then
                      parseStrAux
                        (Char.ofNat (0x10000 + (n - 0xD800) * 0x400 + (m - 0xDC00)) :: acc)
                        rest4
                    else none
                  | _, _, _, _ => none
                | _ => none
              else if 0xDC00 ≤ n ∧ n ≤ 0xDFFF then none
              else parseStrAux (Char.ofNat n :: acc) rest3
            | _, _, _, _ => none
          | _ => none
        else none
    else if c.toNat < 0x20 then none
    else parseStrAux (c :: acc) rest

/-- Maximal leading digit run and the remainder. -/
def digitsSpan (cs : List Char) : List Char × List Char :=
  (cs.takeWhile Char.isDigit, cs.dropWhile Char.isDigit)

/-- Numeric value of a digit run. -/
def natOfDigits (ds : List Char) : Nat :=
  ds.foldl (fun a c => a * 10 + (c.toNat - 48)) 0

/-- JSON fraction part: either absent, or a dot followed by at least one digit. -/
def parseFrac : List Char → Option (List Char × List Char)
  | '.' :: t =>
    let p := digitsSpan t
    if p.1.isEmpty then none else some p
  | t => some ([], t)

/-- Exponent digits after `e`/`E`, with optional sign. -/
def parseExpTail (t : List Char) : Option (Int × List Char) :=
  let sp : Int × List Char :=
    match t with
    | '+' :: u => (1, u)
    | '-' :: u => (-1, u)
    | u => (1, u)
  let p := digitsSpan sp.2
  if p.1.isEmpty then none else some (sp.1 * (natOfDigits p.1 : Int), p.2)

/-- JSON exponent part: either absent (exponent 0), or `e`/`E` then digits. -/
def parseExp : List Char → Option (Int × List Char)
  | 'e' :: t => parseExpTail t
  | 'E' :: t => parseExpTail t
  | t => some (0, t)

/-- Whether the input starts with an exponent marker. -/
def isExpStart : List Char → Bool
  | 'e' :: _ => true
  | 'E' :: _ => true
  | _ => false

/-- JSON number parser.  Integer literals become Python ints; literals with a
fraction or exponent become floats, modelled by their exact decimal value. -/
def parseNumber (cs : List Char) : Option (PyVal × List Char) :=
  let sp : Bool × List Char :=
    match cs with
    | '-' :: t => (true, t)
    | t => (false, t)
  let ip := digitsSpan sp.2
  if ip.1.isEmpty then none
  else if ip.1.length > 1 && ip.1.head? == some '0' then none
  else
    match parseFrac ip.2 with
    | none => none
    | some (fds, cs3) =>
      if fds.isEmpty && !isExpStart cs3 then
        let v : Int := natOfDigits ip.1
        some (.pint (if sp.1 then -v else v), cs3)
      else
        match parseExp cs3 with
        | none => none
        | some (e, cs4) =>
          let mant : Int := (natOfDigits ip.1 : Int) * 10 ^ fds.length + natOfDigits fds
          let mant : Int := if sp.1 then -mant else mant
          let scale : Int := e - fds.length
          let q : Rat :=
            if 0 ≤ scale then ((mant * 10 ^ scale.toNat : Int) : Rat)
            else (mant : Rat) / ((10 ^ (- scale).toNat : Int) : Rat)
          some (.pfloat q, cs4)

mutual

/-- JSON value parser with fuel (each recursive call consumes fuel; the
top-level call supplies enough for any input of the given length). -/
def parseVal : Nat → List Char → Option (PyVal × List Char)
  | 0, _ => none
  | fuel + 1, cs =>
    match skipWs cs with
    | [] => none
    | c :: rest =>
      if c = '\x7b' then
        match skipWs rest with
        | '\x7d' :: r2 => some (.pdict [], r2)
        | r2 => parseMembers fuel r2 []
      else if c = '[' then
        match skipWs rest with
        | ']' :: r2 => some (.plist [], r2)
        | r2 => parseElems fuel r2 []
      else if c = '"' then
        (parseStrAux [] rest).map (fun p => (.pstr p.1, p.2))
      else if c = 't' then
        match rest with
        | 'r' :: 'u' :: 'e' :: r2 => some (.pbool true, r2)
        | _ => none
      else if c = 'f' then
        match rest with
        | 'a' :: 'l' :: 's' :: 'e' :: r2 => some (.pbool false, r2)
        | _ => none
      else if c = 'n' then
        match rest with
        | 'u' :: 'l' :: 'l' :: r2 => some (.pnull, r2)
        | _ => none
      else parseNumber (c :: rest)

/-- Comma-separated JSON array elements up to the closing bracket. -/
def parseElems : Nat → List Char → List PyVal → Option (PyVal × List Char)
  | 0, _, _ => none
  | fuel + 1, cs, acc =>
    match parseVal fuel cs with
    | none => none
    | some (v, r) =>
      match skipWs r with
      | ',' :: r2 => parseElems fuel r2 (v :: acc)
      | ']' :: r2 => some (.plist (v :: acc).reverse, r2)
      | _ => none

/-- Comma-separated JSON object members up to the closing brace; duplicate
keys overwrite in place as in Python. -/
def parseMembers : Nat → List Char → List (String × PyVal) →
    Option (PyVal × List Char)
  | 0, _, _ => none
  | fuel + 1, cs, acc =>
    match skipWs cs with
    | '"' :: r =>
      match parseStrAux [] r with
      | none => none
      | some (k, r2) =>
        match skipWs r2 with
        | ':' :: r3 =>
          match parseVal fuel r3 with
          | none => none
          | some (v, r4) =>
            match skipWs r4 with
            | ',' :: r5 => parseMembers fuel r5 (dictInsert acc k v)
            | '\x7d' :: r5 => some (.pdict (dictInsert acc k v), r5)
            | _ => none
        | _ => none
    | _ => none

end

/-- Model of `json.loads` on a character list: parse one JSON document,
allowing only trailing whitespace.  `none` models `json.JSONDecodeError`. -/
def loadsL (cs : List Char) : Option PyVal :=
  match parseVal (2 * cs.length + 4) cs with
  | some (v, rest) => if (skipWs rest).isEmpty then some v else none
  | none => none

/-- Python iteration over a value (`for q in x`): lists yield elements,
strings yield their characters, dicts yield their keys; other values raise
`TypeError` (modelled by `none`). -/
def pyIter : PyVal → Option (List PyVal)
  | .plist xs => some xs
  | .pstr s => some (s.toList.map (fun c => .pstr (String.mk [c])))
  | .pdict xs => some (xs.map (fun p => .pstr p.1))
  | _ => none

/-- Faithful translation of the inner helper `normalize_questions` of
`_extract_json`: keep only dict elements, and rebuild each as a dict with
exactly the keys `id` (defaulting to the 1-based position in the original
list), `question` (defaulting to ""), `options` (defaulting to `[]`) and
`correct_index` (taken from `correct_index`, then `correctIndex`, then 0). -/
def normalize_questions (l : List PyVal) : List PyVal :=
  l.enum.filterMap (fun p =>
    match p.2 with
    | .pdict q =>
      some (.pdict
        [("id", dictGetD q "id" (.pint ((p.1 : Int) + 1))),
         ("question", dictGetD q "question" (.pstr "")),
         ("options", dictGetD q "options" (.plist [])),
         ("correct_index",
            dictGetD q "correct_index" (dictGetD q "correctIndex" (.pint 0)))])
    | _ => none)

/-- One scan step outcome for a strategy-2 textual match of `_extract_json`:
either the match raised (`thrown`), did not produce a result (`cont`), or
produced the final normalized question list (`found`). -/
inductive MOut where
  | thrown
  | cont
  | found (qs : List PyVal)

/-- The three-backtick fence delimiter. -/
def fence : List Char := ['\x60', '\x60', '\x60']

/-- The opening marker of a fenced json block. -/
def fenceJson : List Char := ['\x60', '\x60', '\x60', 'j', 's', 'o', 'n']

/-- All captures of the fenced-block regexes: find `marker`, capture up to
the next closing triple backtick, continue after it (non-overlapping
left-to-right matches, as `re.findall` produces; the capture keeps its
surrounding whitespace, which the consumer strips anyway). -/
def findFencedAux (marker : List Char) : Nat → List Char → List (List Char)
  | 0, _ => []
  | fuel + 1, cs =>
    match findSubIdx marker cs with
    | none => []
    | some i =>
      let rest := (cs.drop (i + marker.length))
      match findSubIdx fence rest with
      | none => []
      | some j => rest.take j :: findFencedAux marker fuel (rest.drop (j + 3))

/-- Captures of the first strategy-2 pattern (fenced json blocks). -/
def findFencedJson (cs : List Char) : List (List Char) :=
  findFencedAux fenceJson (cs.length + 1) cs

/-- Captures of the second strategy-2 pattern (any fenced code block). -/
def findFencedAny (cs : List Char) : List (List Char) :=
  findFencedAux fence (cs.length + 1) cs

/-- The single possible match of the greedy span regexes (third and fourth
strategy-2 patterns): from the first opening delimiter to the last closing
delimiter, when the latter comes after the former. -/
def spanMatch (openC closeC : Char) (cs : List Char) : List (List Char) :=
  match cs.findIdx? (· = openC), rfindIdx closeC cs with
  | some i, some j => if i < j then [(cs.drop i).take (j - i + 1)] else []
  | _, _ => []

/-- The body of the strategy-2 match loop of `_extract_json`, for one textual
match: strip it; if it starts with `[`, truncate at the last `]` and parse as
a nonempty array; otherwise slice from the first `\x7b`, truncate at the last
`\x7d`, and parse as an object carrying a `questions` entry (iterating a
non-iterable `questions` value raises). -/
def tryMatch (m : List Char) : MOut :=
  let clean := pyStrip m
  if clean.head? = some '[' then
    let clean2 :=
      match rfindIdx ']' clean with
      | some k => clean.take (k + 1)
      | none => clean
    match loadsL clean2 with
    | some (.plist l) => if 0 < l.length then .found (normalize_questions l) else .cont
    | _ => .cont
  else
    let c3 :=
      if clean.head? = some '\x7b' then clean
      else
        match clean.findIdx? (· = '\x7b') with
        | some k => clean.drop k
        | none => clean
    let c4 :=
      match rfindIdx '\x7d' c3 with
      | some k => c3.take (k + 1)
      | none => c3
    match loadsL c4 with
    | some (.pdict d) =>
      match dictGet d "questions" with
      | some qv =>
        match pyIter qv with
        | some l => .found (normalize_questions l)
        | none => .thrown
      | none => .cont
    | _ => .cont

/-- Try the matches of one pattern in order; the first non-`cont` outcome wins. -/
def tryMatches : List (List Char) → MOut
  | [] => .cont
  | m :: rest =>
    match tryMatch m with
    | .cont => tryMatches rest
    | r => r

/-- Chain two strategy outcomes: the second is consulted only if the first
continued. -/
def orElseM (a : MOut) (b : Unit → MOut) : MOut :=
  match a with
  | .cont => b ()
  | r => r

/-- Strategy 2 of `_extract_json`: the four regex patterns in their fixed
priority order (fenced json block, any fenced block, bracketed span, braced
span), each over the raw text, stopping at the first success. -/
def strategy2 (cs : List Char) : MOut :=
  orElseM (tryMatches (findFencedJson cs)) (fun _ =>
    orElseM (tryMatches (findFencedAny cs)) (fun _ =>
      orElseM (tryMatches (spanMatch '[' ']' cs)) (fun _ =>
        tryMatches (spanMatch '\x7b' '\x7d' cs))))

/-- Result of strategy 2 lifted to the function's return shape. -/
def strategy2E (cs : List Char) : Except Unit (Option (List PyVal)) :=
  match strategy2 cs with
  | .found r => .ok (some r)
  | .thrown => .error ()
  | .cont => .ok none

/-- Faithful translation of `AIService._extract_json`.  Strategy 1 parses the
whole stripped text as JSON, accepting a nonempty array or an object with a
`questions` entry; otherwise strategy 2 scans the raw text.  `.ok (some qs)`
models returning the dict with the normalized `questions` list, `.ok none`
models returning `None`, and `.error ()` models an uncaught exception
(iterating a non-iterable `questions` value; only `json.JSONDecodeError` is
caught by the source). -/
def extract_json (cs : List Char) : Except Unit (Option (List PyVal)) :=
  match loadsL (pyStrip cs) with
  | some (.plist l) =>
    if 0 < l.length then .ok (some (normalize_questions l)) else strategy2E cs
  | some (.pdict d) =>
    match dictGet d "questions" with
    | some qv =>
      match pyIter qv with
      | some l => .ok (some (normalize_questions l))
      | none => .error ()
    | none => strategy2E cs
  | _ => strategy2E cs

/-- The fixed denylist of low-quality question substrings. -/
def low_quality_patterns : List String :=
  ["abbreviation for", "acronym for", "what does the word",
   "spell ", "how do you spell", "define the word",
   "synonym for", "antonym for",
   "q1", "q2", "q3", "q4", "q5", "question text", "your question"]

/-- Faithful translation of `AIService._validate_question` on a model value.
`some b` is a returned verdict; `none` models an uncaught exception: a truthy
non-string `question` value (whose `.strip()` raises `AttributeError`), or
membership testing on a non-container candidate.  Candidates reaching this
function from `generate_quiz` are always dicts. -/
def validate_question : PyVal → Option Bool
  | .pdict d =>
    match dictGet d "question" with
    | none => some false
    | some qv =>
      if !pyTruthy qv then some false
      else
        match qv with
        | .pstr s =>
          let qt := pyStrip s.toList
          if qt.length < 15 then some false
          else if low_quality_patterns.any
              (fun p => containsSub p.toList (pyLower qt)) then some false
          else
            match dictGet d "options" with
            | none => some false
            | some (.plist opts) =>
              if opts.length ≠ 4 then some false
              else if opts.all
                  (fun o => (pyStrip (pyStr o).toList).length ≤ 2) then some false
              else
                match dictGetD d "correct_index" (dictGetD d "correctIndex" .pnull) with
                | .pnull => some false
                | cv =>
                  match pyToInt cv with
                  | none => some false
                  | some i => if i < 0 ∨ 3 < i then some false else some true
            | some _ => some false
        | _ => none
  | .plist l =>
    if l.any (fun x => match x with | .pstr s => s == "question" | _ => false)
    then none else some false
  | .pstr s =>
    if containsSub "question".toList s.toList then none else some false
  | _ => none

/-- Build one hand-authored bank question dict (shape used throughout the
static bank: `question`, four `options`, `correct_index`). -/
def mkQ (q o1 o2 o3 o4 : String) (ci : Int) : PyVal :=
  .pdict [("question", .pstr q),
          ("options", .plist [.pstr o1, .pstr o2, .pstr o3, .pstr o4]),
          ("correct_index", .pint ci)]

/-- The static topic-keyed fallback bank of `_generate_fallback_question`
(case-sensitive exact match on the display name; `none` models a missing key). -/
def fallback_bank : String → Option (List PyVal)
  | "Wellness" => some
    [mkQ "Which of these is recommended for better sleep?"
       "Caffeine before bed" "Regular sleep schedule" "Screen time" "Heavy meals" 1,
     mkQ "What is mindfulness?"
       "Sleeping more" "Present moment awareness" "Multitasking" "Speed reading" 1,
     mkQ "How much water should adults drink daily?"
       "1 cup" "8 cups" "20 cups" "No water needed" 1,
     mkQ "Which activity reduces stress?"
       "Meditation" "Overworking" "Skipping meals" "Isolation" 0,
     mkQ "What\x27s a benefit of regular exercise?"
       "Fatigue" "Better mood" "Weight gain" "Insomnia" 1]
  | "Tech Trends" => some
    [mkQ "What does AI stand for?"
       "Artificial Intelligence" "Automated Internet" "Advanced Integration" "Auto Interface" 0,
     mkQ "What is cloud computing?"
       "Weather prediction" "Remote data storage and processing" "Airplane technology" "Photography" 1,
     mkQ "What is blockchain?"
       "A game" "Distributed ledger technology" "Social media" "Email service" 1,
     mkQ "What does IoT mean?"
       "Internet of Things" "Input of Text" "Internal Operations" "Image Optimization" 0,
     mkQ "What is machine learning?"
       "Robot building" "AI learning from data" "Computer repair" "Typing practice" 1]
  | "Space Exploration" => some
    [mkQ "Which planet is known as the Red Planet?"
       "Venus" "Mars" "Jupiter" "Saturn" 1,
     mkQ "What is the closest star to Earth?"
       "Polaris" "Sirius" "The Sun" "Alpha Centauri" 2,
     mkQ "Who was the first human in space?"
       "Neil Armstrong" "Yuri Gagarin" "Buzz Aldrin" "John Glenn" 1,
     mkQ "What is a light-year?"
       "Time unit" "Distance unit" "Speed unit" "Weight unit" 1,
     mkQ "Which planet has the most moons?"
       "Earth" "Mars" "Saturn" "Mercury" 2]
  | "World History" => some
    [mkQ "In which year did World War II end?"
       "1943" "1945" "1947" "1950" 1,
     mkQ "Who was the first President of the United States?"
       "Abraham Lincoln" "Thomas Jefferson" "George Washington" "John Adams" 2,
     mkQ "Which ancient wonder was located in Egypt?"
       "Colossus of Rhodes" "Great Pyramid of Giza" "Hanging Gardens" "Temple of Artemis" 1,
     mkQ "The Renaissance began in which country?"
       "France" "England" "Italy" "Spain" 2,
     mkQ "Who discovered America in 1492?"
       "Vasco da Gama" "Ferdinand Magellan" "Christopher Columbus" "Amerigo Vespucci" 2]
  | "Science & Nature" => some
    [mkQ "What is the chemical symbol for water?"
       "O2" "H2O" "CO2" "NaCl" 1,
     mkQ "What is the largest organ in the human body?"
       "Heart" "Liver" "Skin" "Brain" 2,
     mkQ "What gas do plants absorb from the air?"
       "Oxygen" "Nitrogen" "Carbon Dioxide" "Hydrogen" 2,
     mkQ "What is the hardest natural substance?"
       "Gold" "Iron" "Diamond" "Platinum" 2,
     mkQ "How many bones are in the adult human body?"
       "106" "206" "306" "406" 1]
  | "Pop Culture" => some
    [mkQ "Which band performed \x27Bohemian Rhapsody\x27?"
       "The Beatles" "Queen" "Led Zeppelin" "Pink Floyd" 1,
     mkQ "What year was the first iPhone released?"
       "2005" "2007" "2009" "2010" 1,
     mkQ "Who directed the movie \x27Titanic\x27?"
       "Steven Spielberg" "James Cameron" "Christopher Nolan" "Martin Scorsese" 1,
     mkQ "Which streaming platform produces \x27Stranger Things\x27?"
       "Amazon Prime" "Hulu" "Netflix" "Disney+" 2,
     mkQ "What social media app is known for short videos?"
       "Facebook" "Twitter" "TikTok" "LinkedIn" 2]
  | _ => none

/-- The generic templated bank of `_generate_fallback_question`, parameterised
by the topic name (used when the topic has no dedicated bank entry). -/
def default_questions (topic : String) : List PyVal :=
  [mkQ ("What is a key aspect of " ++ topic ++ "?")
     "Knowledge" "Ignorance" "Confusion" "None" 0,
   mkQ ("Why is " ++ topic ++ " important?")
     "Personal growth" "No reason" "Waste of time" "Harmful" 0,
   mkQ ("How can one learn about " ++ topic ++ "?")
     "Reading and practice" "Sleeping" "Ignoring it" "Running away" 0,
   mkQ ("What skill helps in " ++ topic ++ "?")
     "Critical thinking" "Laziness" "Procrastination" "Denial" 0,
   mkQ ("Who can benefit from " ++ topic ++ "?")
     "Everyone" "No one" "Only experts" "Only children" 0]

/-- Faithful translation of `AIService._generate_fallback_question`: select
the topic bank (or the generic one), index by `(question_id - 1) mod length`,
and prepend the `id` entry as the dict-splat `{"id": question_id, **q}` does
(no bank dict carries an `id` key). -/
def generate_fallback_question (topic : String) (question_id : Int) : PyVal :=
  let tq := (fallback_bank topic).getD (default_questions topic)
  let idx := ((question_id - 1) % (tq.length : Int)).toNat
  match tq.getD idx .pnull with
  | .pdict kvs => .pdict (("id", .pint question_id) :: kvs)
  | v => v

/-- Faithful translation of `AIService._generate_fallback_questions`:
fallback questions for slots 1 through 5. -/
def generate_fallback_questions (topic : String) : List PyVal :=
  (List.range' 1 5).map (fun i => generate_fallback_question topic (Int.ofNat i))

/-- The validation loop of `generate_quiz` over the (at most five) candidates
given to it: collect, in order, those the validator accepts; a raised
validator exception aborts the whole attempt (`none`). -/
def collectValid : List PyVal → Option (List PyVal)
  | [] => some []
  | q :: rest =>
    match validate_question q with
    | none => none
    | some true => (collectValid rest).map (q :: ·)
    | some false => collectValid rest

/-- The padding loop of `generate_quiz`, as a bounded iteration: each pass
appends one fallback question for slot `current count + 1` while fewer than
five questions remain (the loop runs at most five times, so five iterations
model the `while` exactly). -/
def padAux (topic : String) : Nat → List PyVal → List PyVal
  | 0, v => v
  | fuel + 1, v =>
    if v.length < 5 then
      padAux topic fuel (v ++ [generate_fallback_question topic ((v.length : Int) + 1)])
    else v

/-- The `while len(valid_questions) < 5` padding loop of `generate_quiz`. -/
def padToFive (topic : String) (v : List PyVal) : List PyVal :=
  padAux topic 5 v

/-- The per-attempt candidate processing of `generate_quiz`: validate the
first five candidates, and if at least three survive, pad to five and
truncate; otherwise the attempt fails (`none`). -/
def process_candidates (topic : String) (questions : List PyVal) :
    Option (List PyVal) :=
  match collectValid (questions.take 5) with
  | none => none
  | some v =>
    if 3 ≤ v.length then some ((padToFive topic v).take 5) else none

/-- Faithful translation of `AIService._make_request` given the behavior of
the external `generate_content` call: a raised error is wrapped and
re-raised; a falsy response text (absent or empty) yields `None`. -/
def make_request (raw : Except String (Option String)) :
    Except String (Option String) :=
  match raw with
  | .error e => .error ("Error communicating with Gemini: " ++ e)
  | .ok none => .ok none
  | .ok (some t) => if t = "" then .ok none else .ok (some t)

/-- One iteration of the retry loop of `generate_quiz`: everything inside the
`try` block — request, extraction, validation, padding — with any raised
exception caught and turned into a failed attempt (`none`). -/
def run_attempt (topic : String) (raw : Except String (Option String)) :
    Option (List PyVal) :=
  match make_request raw with
  | .error _ => none
  | .ok none => none
  | .ok (some text) =>
    match extract_json text.toList with
    | .error _ => none
    | .ok none => none
    | .ok (some questions) => process_candidates topic questions

/-- The retry bound `self.max_retries`. -/
def max_retries : Nat := 3

/-- The backoff `self.retry_delay` (a blocking sleep between failed attempts;
real time is not part of the model). -/
def retry_delay : Nat := 2

/-- The retry loop of `generate_quiz` (`for attempt in range(max_retries)`),
counting down the remaining attempts: run the current attempt, return its
result on success, recurse on failure, and fall back entirely once all
attempts are exhausted. -/
def quizLoop (topic : String) (transport : Nat → Except String (Option String)) :
    Nat → Nat → List PyVal
  | 0, _ => generate_fallback_questions topic
  | remaining + 1, attempt =>
    match run_attempt topic (transport attempt) with
    | some r => r
    | none => quizLoop topic transport remaining (attempt + 1)

/-- Faithful translation of `AIService.generate_quiz`.  The transport
argument gives the behavior of the external text-generation call on each
attempt: a raised error, a missing response text, or the raw response text. -/
def generate_quiz (topic : String)
    (transport : Nat → Except String (Option String)) : List PyVal :=
  quizLoop topic transport max_retries 0

/-- The percentage computation of `generate_feedback` (real arithmetic
modelled exactly by rationals; the guard returns 0 unless `total > 0`). -/
def percentage (score total : Int) : Rat :=
  if 0 < total then ((score : Rat) / (total : Rat)) * 100 else 0

/-- The quote characters trimmed from a feedback response (`strip("\"\x27")`). -/
def quoteChars : List Char := ['"', '\x27']

/-- Python `" ".join` on tokenised words: interpose one space between
consecutive words. -/
def joinWords : List (List Char) → List Char
  | [] => []
  | [w] => w
  | w :: x :: t => w ++ ' ' :: joinWords (x :: t)

/-- Tokeniser behind Python's `str.split()` (no arguments): split on runs of
whitespace, discarding empty tokens; the accumulator holds the current token
reversed. -/
def pySplitAux : List Char → List Char → List (List Char)
  | [], acc => if acc.isEmpty then [] else [acc.reverse]
  | c :: cs, acc =>
    if pyIsSpace c then
      if acc.isEmpty then pySplitAux cs [] else acc.reverse :: pySplitAux cs []
    else pySplitAux cs (c :: acc)

/-- Python `str.split()` with no arguments. -/
def pySplit (cs : List Char) : List (List Char) :=
  pySplitAux cs []

/-- Faithful translation of `AIService.generate_feedback`: compute the score
percentage; on a truthy response, strip surrounding whitespace and quotes,
split into words, truncate to 50 words and rejoin with single spaces; on any
failure (raised error or missing response) return the percentage-bracket
template.  Never raises. -/
def generate_feedback (score total : Int) (topic : String)
    (_questions : List PyVal) (_answers : List Int)
    (raw : Except String (Option String)) : String :=
  let pct := percentage score total
  let fb :=
    if 80 ≤ pct then "Excellent! You really know your " ++ topic ++ "."
    else if 60 ≤ pct then "Good job! Solid understanding of " ++ topic ++ "."
    else if 40 ≤ pct then "Nice try! Keep learning about " ++ topic ++ "."
    else "Keep going! " ++ topic ++ " takes practice."
  match make_request raw with
  | .ok (some response) =>
    if response = "" then fb
    else
      let cleaned := pyStripChars quoteChars (pyStrip response.toList)
      let words := pySplit cleaned
      let words2 := if 50 < words.length then words.take 50 else words
      String.mk (joinWords words2)
  | _ => fb

lemma length_generate_fallback_questions (topic : String) :
    (generate_fallback_questions topic).length = 5 := by
  unfold generate_fallback_questions
  rw [List.length_map, List.length_range']

lemma padAux_closed (topic : String) : ∀ fuel k v, v.length + k = 5 → k ≤ fuel →
    padAux topic fuel v
      = v ++ (List.range' (v.length + 1) k).map
          (fun i => generate_fallback_question topic (Int.ofNat i)) := by
  intro fuel
  induction fuel with
  | zero =>
    intro k v h hk
    have hk0 : k = 0 := by omega
    subst hk0
    simp [padAux]
  | succ fuel ih =>
    intro k v h hk
    rcases Nat.eq_zero_or_pos k with hk0 | hkpos
    · subst hk0
      have hnlt : ¬ v.length < 5 := by omega
      simp [padAux, hnlt]
    · have hlt : v.length < 5 := by omega
      rw [padAux]
      simp only [hlt, if_pos]
      rw [ih (k - 1) (v ++ [generate_fallback_question topic ((v.length : Int) + 1)])
        (by simp; omega) (by omega)]
      simp only [List.length_append, List.length_cons, List.length_nil]
      have hrange : List.range' (v.length + 1) k
          = (v.length + 1) :: List.range' (v.length + 1 + 1) (k - 1) := by
        rcases Nat.exists_eq_succ_of_ne_zero (by omega : k ≠ 0) with ⟨k2, rfl⟩
        simp [List.range'_succ]
      rw [hrange]
      simp

lemma padToFive_closed (topic : String) : ∀ k v, v.length + k = 5 →
    padToFive topic v
      = v ++ (List.range' (v.length + 1) k).map
          (fun i => generate_fallback_question topic (Int.ofNat i)) := by
  intro k v h
  exact padAux_closed topic 5 k v h (by omega)

lemma padToFive_of_ge (topic : String) (v : List PyVal) (h : ¬ v.length < 5) :
    padToFive topic v = v := by
  unfold padToFive
  rw [padAux]
  simp [h]

lemma five_le_padToFive (topic : String) (v : List PyVal) :
    5 ≤ (padToFive topic v).length := by
  rcases Nat.lt_or_ge v.length 5 with hlt | hge
  · rw [padToFive_closed topic (5 - v.length) v (by omega),
      List.length_append, List.length_map, List.length_range']
    omega
  · rw [padToFive_of_ge topic v (by omega)]; omega

lemma collectValid_length_le : ∀ l v, collectValid l = some v → v.length ≤ l.length := by
  intro l
  induction l with
  | nil => intro v h; simp [collectValid] at h; simp [← h]
  | cons q rest ih =>
    intro v h
    simp only [collectValid] at h
    cases hq : validate_question q with
    | none => rw [hq] at h; exact absurd h (by simp)
    | some b =>
      rw [hq] at h
      cases b with
      | true =>
        simp only at h
        cases hr : collectValid rest with
        | none => rw [hr] at h; exact absurd h (by simp)
        | some w =>
          rw [hr] at h
          simp at h
          subst h
          simp
          exact ih w hr
      | false =>
        simp only at h
        have := ih v h
        simp; omega

lemma process_candidates_some_length (topic : String) (qs r : List PyVal)
    (h : process_candidates topic qs = some r) : r.length = 5 := by
  unfold process_candidates at h
  cases hv : collectValid (qs.take 5) with
  | none => rw [hv] at h; exact absurd h (by simp)
  | some v =>
    rw [hv] at h
    by_cases h3 : 3 ≤ v.length
    · simp only [h3, if_pos] at h
      have := five_le_padToFive topic v
      have hr : r = (padToFive topic v).take 5 := by
        cases h; rfl
      rw [hr, List.length_take]
      omega
    · simp [h3] at h

lemma run_attempt_some_length (topic : String) (raw : Except String (Option String))
    (r : List PyVal) (h : run_attempt topic raw = some r) : r.length = 5 := by
  unfold run_attempt at h
  cases hm : make_request raw with
  | error e => rw [hm] at h; exact absurd h (by simp)
  | ok o =>
    rw [hm] at h
    cases o with
    | none => exact absurd h (by simp)
    | some text =>
      simp only at h
      cases he : extract_json text.toList with
      | error u => rw [he] at h; exact absurd h (by simp)
      | ok po =>
        rw [he] at h
        cases po with
        | none => exact absurd h (by simp)
        | some questions => exact process_candidates_some_length topic questions r h

lemma quizLoop_length (topic : String)
    (transport : Nat → Except String (Option String)) :
    ∀ remaining attempt, (quizLoop topic transport remaining attempt).length = 5 := by
  intro remaining
  induction remaining with
  | zero =>
    intro attempt
    simp [quizLoop, length_generate_fallback_questions]
  | succ remaining ih =>
    intro attempt
    rw [quizLoop]
    cases hr : run_attempt topic (transport attempt) with
    | none => exact ih (attempt + 1)
    | some r => exact run_attempt_some_length topic (transport attempt) r hr

/-- C1: for every topic string and every behavior of the external
text-generation call on each of the attempts (arbitrary response text, empty
or missing response, or a raised error), `generate_quiz` returns an ordered
list of exactly 5 question records; exceptions are modelled explicitly in the
transport and caught by the retry loop, so the function is total and never
raises to its caller. -/
theorem C1_generate_quiz_always_five_questions
    (topic : String) (transport : Nat → Except String (Option String)) :
    (generate_quiz topic transport).length = 5 :=
  quizLoop_length topic transport max_retries 0

lemma process_candidates_some (topic : String) (qs v : List PyVal)
    (hval : collectValid (qs.take 5) = some v) (h3 : 3 ≤ v.length) :
    process_candidates topic qs
      = some (v ++ (List.range' (v.length + 1) (5 - v.length)).map
          (fun i => generate_fallback_question topic (Int.ofNat i))) := by
  have hv5 : v.length ≤ 5 := by
    have := collectValid_length_le (qs.take 5) v hval
    have := List.length_take 5 qs
    omega
  have hclosed := padToFive_closed topic (5 - v.length) v (by omega)
  have hlen : (padToFive topic v).length = 5 := by
    rw [hclosed, List.length_append, List.length_map, List.length_range']
    omega
  unfold process_candidates
  rw [hval]
  simp only [h3, if_pos]
  rw [List.take_of_length_le (by omega), hclosed]

lemma make_request_ok (text : String) (hne : text ≠ "") :
    make_request (.ok (some text)) = .ok (some text) := by
  unfold make_request
  show (if text = "" then (Except.ok none : Except String (Option String))
    else .ok (some text)) = .ok (some text)
  rw [if_neg hne]

lemma run_attempt_first (topic : String) (text : String) (qs v : List PyVal)
    (hne : text ≠ "")
    (hext : extract_json text.toList = .ok (some qs))
    (hval : collectValid (qs.take 5) = some v) (h3 : 3 ≤ v.length) :
    run_attempt topic (.ok (some text))
      = some (v ++ (List.range' (v.length + 1) (5 - v.length)).map
          (fun i => generate_fallback_question topic (Int.ofNat i))) := by
  unfold run_attempt
  rw [make_request_ok text hne]
  show (match extract_json text.toList with
    | Except.error _ => none
    | Except.ok none => none
    | Except.ok (some questions) => process_candidates topic questions)
      = _
  rw [hext]
  exact process_candidates_some topic qs v hval h3

lemma run_attempt_error (topic : String) (e : String) :
    run_attempt topic (.error e) = none := by
  unfold run_attempt make_request
  rfl

lemma quizLoop_success (topic : String)
    (transport : Nat → Except String (Option String)) (rem attempt : Nat)
    (r : List PyVal) (h : run_attempt topic (transport attempt) = some r) :
    quizLoop topic transport (rem + 1) attempt = r := by
  rw [quizLoop, h]

lemma quizLoop_skip (topic : String)
    (transport : Nat → Except String (Option String)) (rem attempt : Nat)
    (h : run_attempt topic (transport attempt) = none) :
    quizLoop topic transport (rem + 1) attempt
      = quizLoop topic transport rem (attempt + 1) := by
  rw [quizLoop, h]

/-- C2: if on some attempt (each earlier attempt having failed) the Parser
yields candidates of which at least 3 of the first 5 pass the Validator,
then `generate_quiz` returns the passing candidates in original order
followed by fallback questions for the remaining slot numbers (count + 1,
count + 2, ...), truncated to exactly 5; no further model request is made
(the result is unchanged under any modification of the transport beyond that
attempt); and candidates beyond the first 5 are never validated (the attempt
outcome depends only on the first 5 candidates).  The 3-valid/2-invalid
instance, on attempt 1 after a failed attempt 0, is exercised by the
witness. -/
theorem C2_first_success_pads_with_fallback
    (topic : String) (transport : Nat → Except String (Option String))
    (a : Nat) (text : String) (qs v : List PyVal)
    (ha : a < max_retries)
    (hearlier : ∀ i < a, run_attempt topic (transport i) = none)
    (hreq : transport a = .ok (some text)) (hne : text ≠ "")
    (hext : extract_json text.toList = .ok (some qs))
    (hval : collectValid (qs.take 5) = some v) (h3 : 3 ≤ v.length) :
    generate_quiz topic transport
        = v ++ (List.range' (v.length + 1) (5 - v.length)).map
            (fun i => generate_fallback_question topic (Int.ofNat i))
      ∧ (∀ transport2 : Nat → Except String (Option String),
          (∀ i ≤ a, transport2 i = transport i) →
          generate_quiz topic transport2 = generate_quiz topic transport)
      ∧ (∀ qs2 : List PyVal, qs2.take 5 = qs.take 5 →
          process_candidates topic qs2 = process_candidates topic qs) := by
  have main : ∀ tr : Nat → Except String (Option String),
      (∀ i ≤ a, tr i = transport i) →
      generate_quiz topic tr
        = v ++ (List.range' (v.length + 1) (5 - v.length)).map
            (fun i => generate_fallback_question topic (Int.ofNat i)) := by
    intro tr htr
    have hrun : run_attempt topic (tr a)
        = some (v ++ (List.range' (v.length + 1) (5 - v.length)).map
            (fun i => generate_fallback_question topic (Int.ofNat i))) := by
      rw [htr a (Nat.le_refl a), hreq]
      exact run_attempt_first topic text qs v hne hext hval h3
    have hfail : ∀ i < a, run_attempt topic (tr i) = none := by
      intro i hi
      rw [htr i (Nat.le_of_lt hi)]
      exact hearlier i hi
    have ha3 : a < 3 := ha
    unfold generate_quiz
    show quizLoop topic tr 3 0 = _
    interval_cases a
    · exact quizLoop_success topic tr 2 0 _ hrun
    · rw [quizLoop_skip topic tr 2 0 (hfail 0 (by omega))]
      exact quizLoop_success topic tr 1 1 _ hrun
    · rw [quizLoop_skip topic tr 2 0 (hfail 0 (by omega)),
        quizLoop_skip topic tr 1 1 (hfail 1 (by omega))]
      exact quizLoop_success topic tr 0 2 _ hrun
  refine ⟨main transport (fun i _ => rfl), ?_, ?_⟩
  · intro transport2 h2
    rw [main transport2 h2, main transport (fun i _ => rfl)]
  · intro qs2 h5
    unfold process_candidates
    rw [h5]

/-- A model response carrying 5 candidate questions of which the 2nd and 4th
fail validation (too short; a denylisted placeholder). -/
def c2text : String :=
  "[\x7b\"question\": \"What is the capital of France?\", \"options\": [\"Lyon\",\"Paris\",\"Nice\",\"Metz\"], \"correctIndex\": 1\x7d," ++
  " \x7b\"question\": \"OK?\", \"options\": [\"aa\",\"bb\",\"cc\",\"dd\"], \"correctIndex\": 0\x7d," ++
  " \x7b\"question\": \"Which planet is known as the Red Planet?\", \"options\": [\"Venus\",\"Mars\",\"Jupiter\",\"Saturn\"], \"correctIndex\": 1\x7d," ++
  " \x7b\"question\": \"Q5?\", \"options\": [\"aa\",\"bb\",\"cc\",\"dd\"], \"correctIndex\": 0\x7d," ++
  " \x7b\"question\": \"In which year did World War II end?\", \"options\": [\"1943\",\"1945\",\"1947\",\"1950\"], \"correctIndex\": 1\x7d]"

/-- Transport that errors on attempt 0, answers `c2text` on attempt 1, and
would fail afterwards. -/
def c2transport : Nat → Except String (Option String) :=
  fun i =>
    if i = 0 then .error "first attempt down"
    else if i = 1 then .ok (some c2text) else .error "unreachable"

/-- The candidate list the Parser extracts from `c2text`. -/
def c2qs : List PyVal :=
  match extract_json c2text.toList with
  | .ok (some qs) => qs
  | _ => []

/-- The sub-list of `c2qs` passing the Validator. -/
def c2valid : List PyVal :=
  match collectValid (c2qs.take 5) with
  | some w => w
  | none => []

set_option maxRecDepth 40000 in
theorem C2_witness :
    generate_quiz "Math" c2transport
      = c2valid ++ (List.range' (c2valid.length + 1) (5 - c2valid.length)).map
          (fun i => generate_fallback_question "Math" (Int.ofNat i)) :=
  (C2_first_success_pads_with_fallback "Math" c2transport 1 c2text c2qs c2valid
    (by decide)
    (fun i hi => by
      have hi0 : i = 0 := by omega
      subst hi0
      exact run_attempt_error "Math" "first attempt down")
    rfl (by decide) rfl rfl (by decide)).1

lemma quiz_all_fail (topic : String)
    (transport : Nat → Except String (Option String))
    (hfail : ∀ i < 3, ∃ e, transport i = .error e) :
    generate_quiz topic transport = generate_fallback_questions topic := by
  have step : ∀ rem i, i < 3 →
      quizLoop topic transport (rem + 1) i = quizLoop topic transport rem (i + 1) := by
    intro rem i hi
    obtain ⟨e, he⟩ := hfail i hi
    rw [quizLoop, he, run_attempt_error]
  unfold generate_quiz max_retries
  rw [step 2 0 (by omega), step 1 1 (by omega), step 0 2 (by omega)]
  rfl

/-- C4: if the transport fails on all 3 attempts, `generate_quiz "History"`
returns exactly the 5 questions of the Fallback Generator for "History", in
bank order for slots 1..5; the static bank has no entry for "History"
(lookup is a case-sensitive exact match on the display name), so these are
the generic templated questions interpolating "History", with the first
option correct. -/
theorem C4_all_fail_history_fallback
    (transport : Nat → Except String (Option String))
    (hfail : ∀ i < 3, ∃ e, transport i = .error e) :
    generate_quiz "History" transport = generate_fallback_questions "History"
      ∧ fallback_bank "History" = none
      ∧ generate_fallback_questions "History"
          = [mkQ "What is a key aspect of History?"
               "Knowledge" "Ignorance" "Confusion" "None" 0,
             mkQ "Why is History important?"
               "Personal growth" "No reason" "Waste of time" "Harmful" 0,
             mkQ "How can one learn about History?"
               "Reading and practice" "Sleeping" "Ignoring it" "Running away" 0,
             mkQ "What skill helps in History?"
               "Critical thinking" "Laziness" "Procrastination" "Denial" 0,
             mkQ "Who can benefit from History?"
               "Everyone" "No one" "Only experts" "Only children" 0].enum.map
              (fun p => match p.2 with
                | .pdict kvs => .pdict (("id", .pint ((p.1 : Int) + 1)) :: kvs)
                | w => w) := by
  exact ⟨quiz_all_fail "History" transport hfail, rfl, by rfl⟩

theorem C4_witness :
    generate_quiz "History" (fun _ => .error "network down")
      = generate_fallback_questions "History" :=
  (C4_all_fail_history_fallback (fun _ => .error "network down")
    (fun _ _ => ⟨"network down", rfl⟩)).1

/-- Observer: the integer `id` field of a question record (-1 when absent or
not an int; every record produced by the code has an int id). -/
def quizId : PyVal → Int
  | .pdict d =>
    match dictGet d "id" with
    | some (.pint n) => n
    | _ => -1
  | _ => -1

/-- Whether a value is a dict. -/
def isPdict : PyVal → Bool
  | .pdict _ => true
  | _ => false

lemma getD_isPdict (l : List PyVal) (idx : Nat) (hlen : idx < l.length)
    (hall : l.all isPdict = true) : isPdict (l.getD idx .pnull) = true := by
  rw [List.getD_eq_getElem l .pnull hlen]
  exact List.all_eq_true.mp hall _ (List.getElem_mem hlen)

lemma fallback_pool_length (topic : String) :
    ((fallback_bank topic).getD (default_questions topic)).length = 5 := by
  unfold fallback_bank
  split
  · rfl
  · rfl
  · rfl
  · rfl
  · rfl
  · rfl
  · rfl

lemma fallback_pool_pdict (topic : String) :
    ((fallback_bank topic).getD (default_questions topic)).all isPdict = true := by
  unfold fallback_bank
  split
  · rfl
  · rfl
  · rfl
  · rfl
  · rfl
  · rfl
  · rfl

lemma quizId_fallback (topic : String) (i : Nat) :
    quizId (generate_fallback_question topic (Int.ofNat i)) = Int.ofNat i := by
  simp only [generate_fallback_question]
  rw [fallback_pool_length]
  have hidx : ((Int.ofNat i - 1) % (5 : Int)).toNat < 5 := by omega
  have hp := getD_isPdict ((fallback_bank topic).getD (default_questions topic))
    ((Int.ofNat i - 1) % (5 : Int)).toNat (by rw [fallback_pool_length]; exact hidx)
    (fallback_pool_pdict topic)
  cases hsel : ((fallback_bank topic).getD (default_questions topic)).getD
      ((Int.ofNat i - 1) % (5 : Int)).toNat .pnull with
  | pdict kvs => simp [quizId, dictGet]
  | pnull => rw [hsel] at hp; simp [isPdict] at hp
  | pbool b => rw [hsel] at hp; simp [isPdict] at hp
  | pint n => rw [hsel] at hp; simp [isPdict] at hp
  | pfloat q => rw [hsel] at hp; simp [isPdict] at hp
  | pstr s => rw [hsel] at hp; simp [isPdict] at hp
  | plist xs => rw [hsel] at hp; simp [isPdict] at hp

lemma map_quizId_fallback (topic : String) :
    (generate_fallback_questions topic).map quizId = [1, 2, 3, 4, 5] := by
  unfold generate_fallback_questions
  show [quizId (generate_fallback_question topic (Int.ofNat 1)),
        quizId (generate_fallback_question topic (Int.ofNat 2)),
        quizId (generate_fallback_question topic (Int.ofNat 3)),
        quizId (generate_fallback_question topic (Int.ofNat 4)),
        quizId (generate_fallback_question topic (Int.ofNat 5))] = [1, 2, 3, 4, 5]
  rw [quizId_fallback topic 1, quizId_fallback topic 2, quizId_fallback topic 3,
      quizId_fallback topic 4, quizId_fallback topic 5]
  rfl

/-- A model response with 3 valid questions carrying their own ids 7, 8, 9. -/
def c5text : String :=
  "[\x7b\"id\": 7, \"question\": \"What is the capital of France?\", \"options\": [\"Lyon\",\"Paris\",\"Nice\",\"Metz\"], \"correctIndex\": 1\x7d," ++
  " \x7b\"id\": 8, \"question\": \"Which planet is known as the Red Planet?\", \"options\": [\"Venus\",\"Mars\",\"Jupiter\",\"Saturn\"], \"correctIndex\": 1\x7d," ++
  " \x7b\"id\": 9, \"question\": \"In which year did World War II end?\", \"options\": [\"1943\",\"1945\",\"1947\",\"1950\"], \"correctIndex\": 1\x7d]"

/-- Transport answering `c5text` on the first attempt. -/
def c5transport : Nat → Except String (Option String) :=
  fun i => if i = 0 then .ok (some c5text) else .error "unreachable"

set_option maxRecDepth 80000 in
/-- C5 counterexample: the claim "the id fields of the 5 entries are exactly
1, 2, 3, 4, 5 in order" fails on the code: valid candidates keep the id the
parser assigned (here the model's own ids 7, 8, 9), so this quiz is numbered
7, 8, 9, 4, 5. -/
theorem C5_counterexample :
    (generate_quiz "Math" c5transport).map quizId = [7, 8, 9, 4, 5]
      ∧ (generate_quiz "Math" c5transport).map quizId ≠ [1, 2, 3, 4, 5] := by
  constructor
  · rfl
  · decide

/-- C5 (amended): every quiz returned by `generate_quiz` has exactly 5
entries, and when it is built entirely by the Fallback Generator (the
transport fails on all attempts) its id fields are exactly 1, 2, 3, 4, 5 in
order; entries taken from model output, however, keep the id assigned by the
parser (the model's own id, or the candidate's 1-based position when absent),
so the ids of a partly model-derived quiz need not be 1..5. -/
theorem C5_amended (topic : String)
    (transport : Nat → Except String (Option String)) :
    (generate_quiz topic transport).length = 5
      ∧ ((∀ i < 3, ∃ e, transport i = .error e) →
          (generate_quiz topic transport).map quizId = [1, 2, 3, 4, 5]) :=
  ⟨quizLoop_length topic transport max_retries 0,
   fun hfail => by
    rw [quiz_all_fail topic transport hfail]
    exact map_quizId_fallback topic⟩

theorem C5_amended_witness :
    (generate_quiz "History" (fun _ => .error "x")).map quizId
      = [1, 2, 3, 4, 5] :=
  (C5_amended "History" (fun _ => .error "x")).2 (fun _ _ => ⟨"x", rfl⟩)

/-- Spec-side predicate (from the claim's words): the question field is
absent, empty, or shorter than 15 characters after trimming (non-string
question values, outside the QuestionCandidate data model, also count as bad). -/
def specQuestionBad (d : List (String × PyVal)) : Bool :=
  match dictGet d "question" with
  | some (.pstr s) => (pyStrip s.toList).length < 15
  | _ => true

/-- Spec-side predicate: the question text case-insensitively contains one of
the fixed denylist substrings. -/
def specDenylisted (d : List (String × PyVal)) : Bool :=
  match dictGet d "question" with
  | some (.pstr s) =>
    low_quality_patterns.any (fun p => containsSub p.toList (pyLower (pyStrip s.toList)))
  | _ => false

/-- Spec-side predicate: options absent, not exactly 4 entries, or every
entry at most 2 characters after trimming. -/
def specOptionsBad (d : List (String × PyVal)) : Bool :=
  match dictGet d "options" with
  | some (.plist opts) =>
    (opts.length ≠ 4 : Bool)
      || opts.all (fun o => (pyStrip (pyStr o).toList).length ≤ 2)
  | _ => true

/-- Spec-side predicate: correct_index absent (or stored as null) or not
parseable as an integer in [0, 3]. -/
def specIndexBad (d : List (String × PyVal)) : Bool :=
  match dictGetD d "correct_index" (dictGetD d "correctIndex" .pnull) with
  | .pnull => true
  | cv =>
    match pyToInt cv with
    | none => true
    | some i => (i < 0 ∨ 3 < i : Bool)

/-- Spec-side rejection condition of the Validator claim: the disjunction of
the four rejection groups. -/
def specRejects (d : List (String × PyVal)) : Bool :=
  specQuestionBad d || specDenylisted d || specOptionsBad d || specIndexBad d

lemma validate_eq_specRejects (d : List (String × PyVal))
    (hq : dictGet d "question" = none ∨ ∃ s, dictGet d "question" = some (.pstr s)) :
    validate_question (.pdict d) = some (!(specRejects d)) := by
  rcases hq with hq | ⟨s, hq⟩
  · simp [validate_question, specRejects, specQuestionBad, specDenylisted,
      specOptionsBad, specIndexBad, hq]
  · simp only [validate_question, specRejects, specQuestionBad, specDenylisted,
      specOptionsBad, specIndexBad, hq]
    by_cases hs : s = ""
    · subst hs
      simp +decide [pyTruthy, pyStrip]
    · have ht : pyTruthy (.pstr s) = true := by simp [pyTruthy, hs]
      simp only [ht, Bool.not_true, Bool.false_eq_true, if_false]
      by_cases h15 : (pyStrip s.toList).length < 15
      · simp_all +decide
      · simp only [h15, if_false, decide_eq_true_eq]
        by_cases hdl : low_quality_patterns.any
            (fun p => containsSub p.toList (pyLower (pyStrip s.toList))) = true
        · simp_all +decide
        · simp only [hdl, Bool.false_eq_true, if_false]
          cases hop : dictGet d "options" with
          | none => simp_all +decide
          | some ov =>
            cases ov with
            | plist opts =>
              by_cases h4 : opts.length = 4
              · simp only [h4, if_false, if_neg (by omega : ¬ (4 : Nat) ≠ 4)]
                by_cases hshort : opts.all
                    (fun o => (pyStrip (pyStr o).toList).length ≤ 2) = true
                · simp_all +decide
                · simp only [hshort, Bool.false_eq_true, if_false]
                  cases hcv : dictGetD d "correct_index"
                      (dictGetD d "correctIndex" .pnull) with
                  | pnull => simp_all +decide
                  | pbool b =>
                    simp only [h15, hdl, h4, hshort]
                    cases hti : pyToInt (.pbool b) with
                    | none => simp_all +decide
                    | some i =>
                      by_cases hr : i < 0 ∨ 3 < i
                      · rcases hr with hr2 | hr2
                        · simp [hr2]
                        · simp [hr2]
                      · have h1 : ¬ i < 0 := fun hx => hr (Or.inl hx)
                        have h2 : ¬ 3 < i := fun hx => hr (Or.inr hx)
                        simp [h1, h2]
                  | pint n =>
                    simp only [h15, hdl, h4, hshort]
                    cases hti : pyToInt (.pint n) with
                    | none => simp_all +decide
                    | some i =>
                      by_cases hr : i < 0 ∨ 3 < i
                      · rcases hr with hr2 | hr2
                        · simp [hr2]
                        · simp [hr2]
                      · have h1 : ¬ i < 0 := fun hx => hr (Or.inl hx)
                        have h2 : ¬ 3 < i := fun hx => hr (Or.inr hx)
                        simp [h1, h2]
                  | pfloat q =>
                    simp only [h15, hdl, h4, hshort]
                    cases hti : pyToInt (.pfloat q) with
                    | none => simp_all +decide
                    | some i =>
                      by_cases hr : i < 0 ∨ 3 < i
                      · rcases hr with hr2 | hr2
                        · simp [hr2]
                        · simp [hr2]
                      · have h1 : ¬ i < 0 := fun hx => hr (Or.inl hx)
                        have h2 : ¬ 3 < i := fun hx => hr (Or.inr hx)
                        simp [h1, h2]
                  | pstr t =>
                    simp only [h15, hdl, h4, hshort]
                    cases hti : pyToInt (.pstr t) with
                    | none => simp_all +decide
                    | some i =>
                      by_cases hr : i < 0 ∨ 3 < i
                      · rcases hr with hr2 | hr2
                        · simp [hr2]
                        · simp [hr2]
                      · have h1 : ¬ i < 0 := fun hx => hr (Or.inl hx)
                        have h2 : ¬ 3 < i := fun hx => hr (Or.inr hx)
                        simp [h1, h2]
                  | plist xs =>
                    simp only [h15, hdl, h4, hshort]
                    cases hti : pyToInt (.plist xs) with
                    | none => simp_all +decide
                    | some i =>
                      by_cases hr : i < 0 ∨ 3 < i
                      · rcases hr with hr2 | hr2
                        · simp [hr2]
                        · simp [hr2]
                      · have h1 : ¬ i < 0 := fun hx => hr (Or.inl hx)
                        have h2 : ¬ 3 < i := fun hx => hr (Or.inr hx)
                        simp [h1, h2]
                  | pdict kvs =>
                    simp only [h15, hdl, h4, hshort]
                    cases hti : pyToInt (.pdict kvs) with
                    | none => simp_all +decide
                    | some i =>
                      by_cases hr : i < 0 ∨ 3 < i
                      · rcases hr with hr2 | hr2
                        · simp [hr2]
                        · simp [hr2]
                      · have h1 : ¬ i < 0 := fun hx => hr (Or.inl hx)
                        have h2 : ¬ 3 < i := fun hx => hr (Or.inr hx)
                        simp [h1, h2]
              · simp_all +decide
            | pnull => simp_all +decide
            | pbool b => simp_all +decide
            | pint n => simp_all +decide
            | pfloat q => simp_all +decide
            | pstr t => simp_all +decide
            | pdict kvs => simp_all +decide

/-- C3: the Validator rejects a candidate exactly when the spec-side
rejection condition holds — question absent/empty/shorter than 15 chars
after trimming, or a case-insensitive denylist hit (e.g. "synonym for"), or
options absent/not exactly 4/all trivially short, or correct_index
absent or not parseable as an integer in [0,3] — and accepts otherwise
(stated for candidates whose question field is absent or a string, the
QuestionCandidate data model; `some` verdicts also show the Validator
returns rather than raising there).  The concrete conjuncts: a question with
text "OK?" is rejected, and one with text "What is the capital of France?",
4 distinct options, and correct_index 2 is accepted. -/
theorem C3_validator_characterization :
    (∀ d : List (String × PyVal),
        dictGet d "question" = none ∨ (∃ s, dictGet d "question" = some (.pstr s)) →
        validate_question (.pdict d) = some (!(specRejects d)))
      ∧ validate_question (mkQ "OK?" "Paris" "Lyon" "Nice" "Metz" 2) = some false
      ∧ validate_question
          (mkQ "What is the capital of France?" "Paris" "Lyon" "Nice" "Metz" 2)
          = some true :=
  ⟨fun d hq => validate_eq_specRejects d hq, by rfl, by rfl⟩

/-- A denylisted candidate ("synonym for") used to witness C3. -/
def c3d : List (String × PyVal) :=
  [("question", .pstr "Name a synonym for happy, if you can?"),
   ("options", .plist [.pstr "glad", .pstr "sad", .pstr "mad", .pstr "bad"]),
   ("correct_index", .pint 0)]

theorem C3_witness :
    validate_question (.pdict c3d) = some (!(specRejects c3d)) :=
  C3_validator_characterization.1 c3d (Or.inr ⟨_, rfl⟩)

lemma length_filterMap_enumFrom (f : Nat × PyVal → Option PyVal)
    (hdict : ∀ i d, ∃ z, f (i, PyVal.pdict d) = some z)
    (hnot : ∀ i x, isPdict x = false → f (i, x) = none) :
    ∀ (l : List PyVal) (n : Nat),
      ((List.enumFrom n l).filterMap f).length = (l.filter isPdict).length := by
  intro l
  induction l with
  | nil => intro n; simp
  | cons x t ih =>
    intro n
    cases hx : isPdict x with
    | true =>
      cases x with
      | pdict d =>
        obtain ⟨z, hz⟩ := hdict n d
        simp [List.enumFrom, List.filterMap_cons, hz, List.filter_cons, isPdict, ih]
      | pnull => simp [isPdict] at hx
      | pbool b => simp [isPdict] at hx
      | pint n2 => simp [isPdict] at hx
      | pfloat q => simp [isPdict] at hx
      | pstr s => simp [isPdict] at hx
      | plist xs => simp [isPdict] at hx
    | false =>
      have hf := hnot n x hx
      simp [List.enumFrom, List.filterMap_cons, hf, List.filter_cons, hx, ih]

lemma length_normalize (l : List PyVal) :
    (normalize_questions l).length = (l.filter isPdict).length := by
  unfold normalize_questions
  rw [show l.enum = List.enumFrom 0 l from rfl]
  exact length_filterMap_enumFrom _
    (fun i d => ⟨_, rfl⟩)
    (fun i x hx => by cases x <;> simp_all [isPdict]) l 0

lemma mem_normalize (l : List PyVal) (y : PyVal) (hy : y ∈ normalize_questions l) :
    ∃ (i : Nat) (d : List (String × PyVal)), l[i]? = some (PyVal.pdict d)
      ∧ y = .pdict
          [("id", dictGetD d "id" (.pint (Int.ofNat i + 1))),
           ("question", dictGetD d "question" (.pstr "")),
           ("options", dictGetD d "options" (.plist [])),
           ("correct_index",
              dictGetD d "correct_index" (dictGetD d "correctIndex" (.pint 0)))] := by
  unfold normalize_questions at hy
  rw [List.mem_filterMap] at hy
  obtain ⟨⟨i, x⟩, hp, hpy⟩ := hy
  cases x with
  | pdict d =>
    refine ⟨i, d, List.mk_mem_enum_iff_getElem?.mp hp, ?_⟩
    simp only at hpy
    exact (Option.some_inj.mp hpy).symm
  | pnull => simp at hpy
  | pbool b => simp at hpy
  | pint n => simp at hpy
  | pfloat q => simp at hpy
  | pstr s => simp at hpy
  | plist xs => simp at hpy

/-- A raw candidate dict with no `correct_index`/`correctIndex` key. -/
def c10qd : List (String × PyVal) :=
  [("question", .pstr "What is the capital of France?"),
   ("options", .plist [.pstr "Lyon", .pstr "Paris", .pstr "Nice", .pstr "Metz"])]

/-- The record `normalize_questions` produces from `c10qd` in first position. -/
def c10nd : List (String × PyVal) :=
  [("id", .pint 1),
   ("question", .pstr "What is the capital of France?"),
   ("options", .plist [.pstr "Lyon", .pstr "Paris", .pstr "Nice", .pstr "Metz"]),
   ("correct_index", .pint 0)]

/-- C10: every candidate list the Parser returns is fully normalized:
non-dict elements are silently dropped (the output length counts exactly the
dict elements, and a successful parse such as "[1, 2]" yields an empty
candidate list); every remaining record is a dict with exactly the four
fields, a missing question defaulting to "", missing options to [], and a
missing correct_index/correctIndex to 0 — so a question without any answer
index reaches the Validator with correct_index 0 and is accepted rather than
rejected for an absent index. -/
theorem C10_parser_output_normalized :
    (∀ l : List PyVal, (normalize_questions l).length = (l.filter isPdict).length)
      ∧ extract_json "[1, 2]".toList = .ok (some [])
      ∧ (∀ (l : List PyVal) (y : PyVal), y ∈ normalize_questions l →
          ∃ (i : Nat) (d : List (String × PyVal)), l[i]? = some (PyVal.pdict d)
            ∧ y = .pdict
                [("id", dictGetD d "id" (.pint (Int.ofNat i + 1))),
                 ("question", dictGetD d "question" (.pstr "")),
                 ("options", dictGetD d "options" (.plist [])),
                 ("correct_index",
                    dictGetD d "correct_index" (dictGetD d "correctIndex" (.pint 0)))])
      ∧ normalize_questions [.pdict c10qd] = [.pdict c10nd]
      ∧ dictGet c10nd "correct_index" = some (.pint 0)
      ∧ validate_question (.pdict c10nd) = some true :=
  ⟨length_normalize, by rfl, mem_normalize, by rfl, by rfl, by rfl⟩

theorem C10_witness :
    ∃ (i : Nat) (d : List (String × PyVal)),
      ([PyVal.pdict c10qd])[i]? = some (PyVal.pdict d)
        ∧ (PyVal.pdict c10nd) = .pdict
            [("id", dictGetD d "id" (.pint (Int.ofNat i + 1))),
             ("question", dictGetD d "question" (.pstr "")),
             ("options", dictGetD d "options" (.plist [])),
             ("correct_index",
                dictGetD d "correct_index" (dictGetD d "correctIndex" (.pint 0)))] :=
  C10_parser_output_normalized.2.2.1 [.pdict c10qd] (.pdict c10nd)
    (List.Mem.head _)

/-- C9: Parser and Validator are deterministic — equal raw texts yield equal
candidate-list results and equal candidates yield equal verdicts (both are
pure functions of their input in this embedding, which models all the state
the source functions read) — and on candidates of the QuestionCandidate
shape (question field absent or a string) the Validator is moreover total,
returning a verdict rather than raising. -/
theorem C9_parser_validator_deterministic :
    (∀ t1 t2 : List Char, t1 = t2 → extract_json t1 = extract_json t2)
      ∧ (∀ q1 q2 : PyVal, q1 = q2 → validate_question q1 = validate_question q2)
      ∧ (∀ d : List (String × PyVal),
          dictGet d "question" = none ∨ (∃ s, dictGet d "question" = some (.pstr s)) →
          ∃ b, validate_question (.pdict d) = some b) :=
  ⟨fun _ _ h => by rw [h], fun _ _ h => by rw [h],
   fun d hq => ⟨_, validate_eq_specRejects d hq⟩⟩

theorem C9_witness :
    extract_json ("no json".toList) = extract_json ("no json".toList)
      ∧ ∃ b, validate_question (.pdict [("question", PyVal.pstr "hello")]) = some b :=
  ⟨C9_parser_validator_deterministic.1 _ _ rfl,
   C9_parser_validator_deterministic.2.2 [("question", PyVal.pstr "hello")]
     (Or.inr ⟨_, rfl⟩)⟩

/-- C7: `generate_feedback` never raises: on any failure — a raised transport
error, a missing response text, or an empty response — it returns the
templated sentence selected by the score-percentage bracket (≥80 excellent,
≥60 good, ≥40 nice try, else keep going), interpolating the topic name; and
the percentage is score/total*100 guarded to 0 when total is 0. -/
theorem C7_feedback_failure_returns_template (score total : Int) (topic : String)
    (questions : List PyVal) (answers : List Int)
    (raw : Except String (Option String))
    (hfail : (∃ e, raw = .error e) ∨ raw = .ok none ∨ raw = .ok (some "")) :
    generate_feedback score total topic questions answers raw
        = (if 80 ≤ percentage score total then
             "Excellent! You really know your " ++ topic ++ "."
           else if 60 ≤ percentage score total then
             "Good job! Solid understanding of " ++ topic ++ "."
           else if 40 ≤ percentage score total then
             "Nice try! Keep learning about " ++ topic ++ "."
           else "Keep going! " ++ topic ++ " takes practice.")
      ∧ percentage score 0 = 0
      ∧ (0 < total → percentage score total = (score : Rat) / (total : Rat) * 100) := by
  refine ⟨?_, rfl, fun ht => by unfold percentage; rw [if_pos ht]⟩
  rcases hfail with ⟨e, rfl⟩ | rfl | rfl
  · rfl
  · rfl
  · rfl

theorem C7_witness :
    generate_feedback 4 5 "History" [] [] (.error "boom")
      = "Excellent! You really know your History." := by
  rw [(C7_feedback_failure_returns_template 4 5 "History" [] [] (.error "boom")
    (Or.inl ⟨"boom", rfl⟩)).1]
  have h80 : (80 : Rat) ≤ percentage 4 5 := by norm_num [percentage]
  rw [if_pos h80]
  rfl

lemma pySplitAux_tokens : ∀ (cs acc : List Char),
    (∀ c ∈ acc, pyIsSpace c = false) →
    ∀ w ∈ pySplitAux cs acc, w ≠ [] ∧ ∀ c ∈ w, pyIsSpace c = false := by
  intro cs
  induction cs with
  | nil =>
    intro acc hacc w hw
    by_cases he : acc.isEmpty
    · simp [pySplitAux, he] at hw
    · simp only [pySplitAux, he, Bool.false_eq_true, if_false, List.mem_singleton] at hw
      subst hw
      refine ⟨fun hrev => he ?_, fun c hc => hacc c (List.mem_reverse.mp hc)⟩
      rw [List.isEmpty_iff]
      exact List.reverse_eq_nil_iff.mp hrev
  | cons c cs ih =>
    intro acc hacc w hw
    rw [pySplitAux] at hw
    by_cases hsp : pyIsSpace c = true
    · rw [if_pos hsp] at hw
      by_cases he : acc.isEmpty
      · rw [if_pos he] at hw
        exact ih [] (by simp) w hw
      · rw [if_neg he] at hw
        rcases List.mem_cons.mp hw with hw | hw
        · subst hw
          refine ⟨fun hrev => he ?_, fun c2 hc2 => hacc c2 (List.mem_reverse.mp hc2)⟩
          rw [List.isEmpty_iff]
          exact List.reverse_eq_nil_iff.mp hrev
        · exact ih [] (by simp) w hw
    · rw [if_neg hsp] at hw
      refine ih (c :: acc) ?_ w hw
      intro c2 hc2
      rcases List.mem_cons.mp hc2 with rfl | hc2
      · exact Bool.not_eq_true _ ▸ (by simpa using hsp)
      · exact hacc c2 hc2

lemma pySplit_tokens (cs : List Char) :
    ∀ w ∈ pySplit cs, w ≠ [] ∧ ∀ c ∈ w, pyIsSpace c = false :=
  pySplitAux_tokens cs [] (by simp)

lemma pySplitAux_word : ∀ (w rest acc : List Char),
    (∀ c ∈ w, pyIsSpace c = false) →
    pySplitAux (w ++ rest) acc = pySplitAux rest (w.reverse ++ acc) := by
  intro w
  induction w with
  | nil => intro rest acc _; simp
  | cons c w ih =>
    intro rest acc hw
    have hc : pyIsSpace c = false := hw c (List.mem_cons_self c w)
    rw [List.cons_append, pySplitAux, if_neg (by simp [hc])]
    rw [ih rest (c :: acc) (fun c2 hc2 => hw c2 (List.mem_cons_of_mem c hc2))]
    simp

lemma pySplit_joinWords : ∀ ws : List (List Char),
    (∀ w ∈ ws, w ≠ [] ∧ ∀ c ∈ w, pyIsSpace c = false) →
    pySplit (joinWords ws) = ws := by
  intro ws
  induction ws with
  | nil => intro _; rfl
  | cons w t ih =>
    intro hws
    obtain ⟨hne, hfl⟩ := hws w (List.mem_cons_self w t)
    cases t with
    | nil =>
      show pySplitAux (joinWords [w]) [] = [w]
      rw [show joinWords [w] = w from rfl,
        show (w : List Char) = w ++ [] by simp,
        pySplitAux_word w [] [] (by simpa using hfl)]
      simp [pySplitAux, List.isEmpty_iff, hne]
    | cons x t2 =>
      show pySplitAux (joinWords (w :: x :: t2)) [] = w :: x :: t2
      rw [show joinWords (w :: x :: t2) = w ++ ' ' :: joinWords (x :: t2) from rfl,
        pySplitAux_word w (' ' :: joinWords (x :: t2)) [] hfl]
      rw [pySplitAux, if_pos (by decide)]
      rw [if_neg (by simp [List.isEmpty_iff, hne])]
      have := ih (fun w2 hw2 => hws w2 (List.mem_cons_of_mem w hw2))
      unfold pySplit at this
      rw [this]
      simp

lemma generate_feedback_success (score total : Int) (topic : String)
    (questions : List PyVal) (answers : List Int) (s : String) (hne : s ≠ "") :
    generate_feedback score total topic questions answers (.ok (some s))
      = String.mk (joinWords
          (if 50 < (pySplit (pyStripChars quoteChars (pyStrip s.toList))).length
           then (pySplit (pyStripChars quoteChars (pyStrip s.toList))).take 50
           else pySplit (pyStripChars quoteChars (pyStrip s.toList)))) := by
  unfold generate_feedback
  rw [make_request_ok s hne]
  show (if s = "" then _ else _) = _
  rw [if_neg hne]

/-- C8: on a truthy model response, `generate_feedback` strips surrounding
whitespace and quote characters, splits on whitespace, keeps at most the
first 50 words and rejoins them with single spaces: the returned string
never contains more than 50 words, and for a response of 80 words the result
is exactly its first 50 words space-joined. -/
theorem C8_feedback_truncates_to_fifty_words (score total : Int) (topic : String)
    (questions : List PyVal) (answers : List Int) (s : String) (hne : s ≠ "") :
    (pySplit (generate_feedback score total topic questions answers
        (.ok (some s))).toList).length ≤ 50
      ∧ (∀ ws : List (List Char),
          pySplit (pyStripChars quoteChars (pyStrip s.toList)) = ws →
          ws.length = 80 →
          generate_feedback score total topic questions answers (.ok (some s))
            = String.mk (joinWords (ws.take 50))) := by
  have heq := generate_feedback_success score total topic questions answers s hne
  constructor
  · rw [heq]
    show (pySplit (joinWords _)).length ≤ 50
    by_cases h50 : 50 < (pySplit (pyStripChars quoteChars (pyStrip s.toList))).length
    · rw [if_pos h50]
      rw [pySplit_joinWords _ (fun w hw =>
        pySplit_tokens (pyStripChars quoteChars (pyStrip s.toList)) w
          (List.take_subset _ _ hw))]
      simp [List.length_take]
    · rw [if_neg h50]
      rw [pySplit_joinWords _ (pySplit_tokens _)]
      omega
  · intro ws hws h80
    rw [heq, hws, if_pos (by omega : 50 < ws.length)]

theorem C8_witness :
    (pySplit (generate_feedback 3 5 "X" [] []
        (.ok (some "one two three"))).toList).length ≤ 50 :=
  (C8_feedback_truncates_to_fifty_words 3 5 "X" [] [] "one two three"
    (by decide)).1

lemma isPrefixOf_append_self (n rest : List Char) :
    n.isPrefixOf (n ++ rest) = true :=
  List.isPrefixOf_iff_prefix.mpr (List.prefix_append n rest)

lemma findSubIdx_append_left (c : Char) (nt a b : List Char) (hc : c ∉ a) :
    findSubIdx (c :: nt) (a ++ b) = (findSubIdx (c :: nt) b).map (· + a.length) := by
  induction a with
  | nil =>
    cases h : findSubIdx (c :: nt) b <;> simp [h]
  | cons x a ih =>
    have hca : c ∉ a := fun h => hc (List.mem_cons_of_mem x h)
    have hx : ¬ (c :: nt).isPrefixOf (x :: (a ++ b)) = true := by
      simp only [List.isPrefixOf, Bool.and_eq_true, beq_iff_eq]
      rintro ⟨rfl, -⟩
      exact hc (List.mem_cons_self _ _)
    rw [List.cons_append, findSubIdx, if_neg hx, ih hca]
    cases h : findSubIdx (c :: nt) b <;> simp [h] <;> omega

lemma findSubIdx_self (c : Char) (nt rest : List Char) :
    findSubIdx (c :: nt) ((c :: nt) ++ rest) = some 0 := by
  rw [List.cons_append, findSubIdx, if_pos]
  rw [← List.cons_append]
  exact isPrefixOf_append_self (c :: nt) rest

lemma findSubIdx_none (c : Char) (nt : List Char) : ∀ cs, c ∉ cs →
    findSubIdx (c :: nt) cs = none := by
  intro cs
  induction cs with
  | nil => intro _; rfl
  | cons x t ih =>
    intro hc
    have hx : ¬ (c :: nt).isPrefixOf (x :: t) = true := by
      simp only [List.isPrefixOf, Bool.and_eq_true, beq_iff_eq]
      rintro ⟨rfl, -⟩
      exact hc (List.mem_cons_self _ _)
    rw [findSubIdx, if_neg hx, ih (fun h => hc (List.mem_cons_of_mem x h))]
    rfl

lemma rfindIdx_getLast (cs : List Char) (ch : Char) (h : cs.getLast? = some ch) :
    rfindIdx ch cs = some (cs.length - 1) := by
  unfold rfindIdx
  have hrev : cs.reverse.head? = some ch := by
    rw [List.head?_reverse]; exact h
  cases hcs : cs.reverse with
  | nil => rw [hcs] at hrev; simp at hrev
  | cons y t =>
    rw [hcs] at hrev
    have hy : y = ch := by simpa using hrev
    subst hy
    simp [List.findIdx?_cons]

lemma findFencedAux_nil (marker : List Char) (fuel : Nat) (cs : List Char)
    (h : findSubIdx marker cs = none) : findFencedAux marker fuel cs = [] := by
  cases fuel <;> simp [findFencedAux, h]

lemma findFencedAux_step (marker : List Char) (fuel : Nat) (cs : List Char)
    (i j : Nat) (hi : findSubIdx marker cs = some i)
    (hj : findSubIdx fence (cs.drop (i + marker.length)) = some j) :
    findFencedAux marker (fuel + 1) cs
      = (cs.drop (i + marker.length)).take j
        :: findFencedAux marker fuel ((cs.drop (i + marker.length)).drop (j + 3)) := by
  rw [findFencedAux, hi]
  simp only [hj]

lemma findFencedJson_single (p1 mid p2 : List Char)
    (h1 : '\x60' ∉ p1) (h2 : '\x60' ∉ mid) (h3 : '\x60' ∉ p2) :
    findFencedJson (p1 ++ (fenceJson ++ (mid ++ (fence ++ p2)))) = [mid] := by
  have hfj : fenceJson = '\x60' :: ['\x60', '\x60', 'j', 's', 'o', 'n'] := rfl
  have hf : fence = '\x60' :: ['\x60', '\x60'] := rfl
  have hi : findSubIdx fenceJson (p1 ++ (fenceJson ++ (mid ++ (fence ++ p2))))
      = some p1.length := by
    rw [hfj, findSubIdx_append_left '\x60' _ p1 _ h1, findSubIdx_self]
    simp
  have hdrop1 : (p1 ++ (fenceJson ++ (mid ++ (fence ++ p2)))).drop
      (p1.length + fenceJson.length) = mid ++ (fence ++ p2) := by
    rw [show p1 ++ (fenceJson ++ (mid ++ (fence ++ p2)))
        = (p1 ++ fenceJson) ++ (mid ++ (fence ++ p2)) by simp,
      show p1.length + fenceJson.length = (p1 ++ fenceJson).length by simp]
    exact List.drop_left _ _
  have hj : findSubIdx fence (mid ++ (fence ++ p2)) = some mid.length := by
    rw [hf, findSubIdx_append_left '\x60' _ mid _ h2, findSubIdx_self]
    simp
  have hdrop2 : (mid ++ (fence ++ p2)).drop (mid.length + 3) = p2 := by
    rw [show mid ++ (fence ++ p2) = (mid ++ fence) ++ p2 by simp,
      show mid.length + 3 = (mid ++ fence).length by simp [fence]]
    exact List.drop_left _ _
  unfold findFencedJson
  rw [findFencedAux_step fenceJson _ _ p1.length mid.length hi (by rw [hdrop1]; exact hj)]
  rw [hdrop1, List.take_left, hdrop2,
    findFencedAux_nil _ _ _ (by rw [hfj]; exact findSubIdx_none '\x60' _ p2 h3)]

lemma tryMatch_found (m body : List Char) (qs : List PyVal)
    (hstrip : pyStrip m = body)
    (hhead : body.head? = some '[')
    (hlast : body.getLast? = some ']')
    (hload : loadsL body = some (.plist qs))
    (hne : qs ≠ []) :
    tryMatch m = .found (normalize_questions qs) := by
  have hlen : 1 ≤ body.length := by
    cases body
    · simp at hhead
    · simp
  have htake : body.take (body.length - 1 + 1) = body := by
    rw [show body.length - 1 + 1 = body.length by omega]
    exact List.take_length _
  unfold tryMatch
  simp only [hstrip]
  rw [if_pos hhead, rfindIdx_getLast body ']' hlast]
  simp only [htake, hload]
  rw [if_pos (List.length_pos.mpr hne)]

lemma strategy2_found (cs m : List Char) (r : List PyVal)
    (hfj : findFencedJson cs = [m]) (hm : tryMatch m = .found r) :
    strategy2 cs = .found r := by
  unfold strategy2
  rw [hfj]
  unfold tryMatches
  rw [hm]
  rfl

lemma extract_strat2 (cs : List Char) (h1 : loadsL (pyStrip cs) = none) :
    extract_json cs = strategy2E cs := by
  unfold extract_json
  rw [h1]

lemma extract_strat1_list (cs : List Char) (l : List PyVal)
    (h : loadsL (pyStrip cs) = some (.plist l)) (hpos : 0 < l.length) :
    extract_json cs = .ok (some (normalize_questions l)) := by
  unfold extract_json
  rw [h]
  simp only [hpos, if_pos]

lemma extract_none (cs : List Char) (h1 : loadsL (pyStrip cs) = none)
    (h2 : strategy2 cs = .cont) : extract_json cs = .ok none := by
  rw [extract_strat2 cs h1]
  unfold strategy2E
  rw [h2]

/-- C6: the Parser, on text made of a fenced json block surrounded by prose
(backtick-free on either side, and with the whole text not being valid JSON,
as prose-bearing text never is) whose content is a JSON array of question
objects, extracts exactly the normalization of that array — same length and
field values, `correctIndex` mapped to `correct_index`, missing ids filled
with the 1-based position; strategies run in fixed priority order — the
whole-text parse wins when it succeeds (second conjunct), and the fenced
scan is consulted only after it fails; when the whole-text parse and every
strategy-2 pattern fail, the Parser returns the no-match result rather than
raising (third conjunct); and normalization preserves the length of an
all-object array (fourth conjunct). -/
theorem C6_parser_fenced_block_extraction :
    (∀ p1 mid p2 body : List Char, ∀ qs : List PyVal,
        '\x60' ∉ p1 → '\x60' ∉ mid → '\x60' ∉ p2 →
        loadsL (pyStrip (p1 ++ (fenceJson ++ (mid ++ (fence ++ p2))))) = none →
        pyStrip mid = body →
        body.head? = some '[' →
        body.getLast? = some ']' →
        loadsL body = some (.plist qs) →
        qs ≠ [] →
        extract_json (p1 ++ (fenceJson ++ (mid ++ (fence ++ p2))))
          = .ok (some (normalize_questions qs)))
      ∧ (∀ (cs : List Char) (l : List PyVal),
          loadsL (pyStrip cs) = some (.plist l) → 0 < l.length →
          extract_json cs = .ok (some (normalize_questions l)))
      ∧ (∀ cs : List Char, loadsL (pyStrip cs) = none → strategy2 cs = .cont →
          extract_json cs = .ok none)
      ∧ (∀ qs : List PyVal, (∀ x ∈ qs, isPdict x = true) →
          (normalize_questions qs).length = qs.length) := by
  refine ⟨?_, extract_strat1_list, extract_none, ?_⟩
  · intro p1 mid p2 body qs h1 h2 h3 hs1 hstrip hhead hlast hload hne
    rw [extract_strat2 _ hs1]
    unfold strategy2E
    rw [strategy2_found _ mid (normalize_questions qs)
      (findFencedJson_single p1 mid p2 h1 h2 h3)
      (tryMatch_found mid body qs hstrip hhead hlast hload hne)]
  · intro qs hall
    rw [length_normalize, List.filter_eq_self.mpr hall]

/-- The fenced content used to witness C6: one well-formed question object. -/
def c6mid : List Char :=
  ("\n[\x7b\"question\": \"What is the capital of France?\","
    ++ " \"options\": [\"Lyon\",\"Paris\",\"Nice\",\"Metz\"], \"correctIndex\": 1\x7d]\n").toList

/-- The stripped fenced content of `c6mid`. -/
def c6body : List Char := pyStrip c6mid

/-- The array the fenced content of `c6mid` parses to. -/
def c6qs : List PyVal :=
  match loadsL c6body with
  | some (.plist l) => l
  | _ => []

set_option maxRecDepth 80000 in
theorem C6_witness :
    extract_json ("Here is the quiz:\n".toList
        ++ (fenceJson ++ (c6mid ++ (fence ++ "\nEnjoy!".toList))))
      = .ok (some (normalize_questions c6qs)) :=
  C6_parser_fenced_block_extraction.1 "Here is the quiz:\n".toList c6mid
    "\nEnjoy!".toList c6body c6qs
    (by decide) (by decide) (by decide) (by rfl) rfl (by rfl) (by rfl) (by rfl)
    (List.cons_ne_nil _ _)
